import Mathlib

/-!
# Verification of the fetchkit mirror-selection + streaming-download pipeline

Shallow embedding of the core of the `fetchkit` crate:
* `src/error.rs`      — error taxonomy (`ErrorKind`, `Error`)
* `src/download/mirror.rs` — probe result ordering (`BytesOrTime::gt`),
  bounded probe (`speedtest`) and the mirror race (`fastest_mirror`)
* `src/verify.rs`     — verifier chain (`SizeVerifier`, `HashVerifier`,
  `update_reader`)
* `src/download/mod.rs` — the orchestrator (`DownloadBuilder::exist`,
  `DownloadBuilder::download`, `MirrorOptions`)

Machine integers are modelled as `Nat`; the only place where the 64-bit
width is observable is `SizeVerifier::update`, which uses
`u64::saturating_add` and is modelled with an explicit cap at `2^64 - 1`.
Durations (`std::time::Duration`) are modelled as `Nat` (nanoseconds);
the code only ever compares them.  Side effects (network requests, file
creation, writes, progress calls) are modelled as an explicit event trace
produced alongside the result.
-/

namespace Fetchkit

/-- `u64::MAX`, the saturation point of `u64::saturating_add`. -/
def U64MAX : Nat := 2 ^ 64 - 1

/-- The error taxonomy of `src/error.rs` (`enum ErrorKind`).  The Rust
enum derives `PartialEq`/`Eq`, which compares by variant; the derived
`BEq`/`DecidableEq` here model exactly that derived comparison. -/
inductive ErrorKind
  | Io
  | Verify
  | Extract
  | Network
  | Other
deriving DecidableEq, BEq, Repr

/-- The `Error` struct of `src/error.rs`: a kind, an optional opaque
source (modelled only by its presence, the payload being an opaque boxed
`dyn Error`), and an optional description.  The Rust struct implements
no `PartialEq`. -/
structure Error where
  kind : ErrorKind
  hasSource : Bool
  description : Option String
deriving DecidableEq, Repr

/-- `Error::new` -/
def Error.new (k : ErrorKind) : Error := ⟨k, false, none⟩

/-- `Error::with_source` (the opaque cause payload is dropped, only its
presence is recorded). -/
def Error.with_source (e : Error) : Error := { e with hasSource := true }

/-- `Error::with_desc` -/
def Error.with_desc (e : Error) (d : String) : Error := { e with description := some d }

/-- `BytesOrTime` from `src/download/mirror.rs`: `Time(elapsed)` is
produced when the byte budget was reached within the time limit,
`Bytes(downloaded)` when the time budget ran out first. -/
inductive BytesOrTime
  | Bytes (b : Nat)
  | Time (t : Nat)
deriving DecidableEq, Repr

/-- The spec's name for the probe outcome "reached the byte budget after
`elapsed` time": the code's `BytesOrTime::Time` constructor. -/
def ReachedByteBudget (elapsed : Nat) : BytesOrTime := .Time elapsed

/-- The spec's name for the probe outcome "reached the time budget with
`bytes` downloaded": the code's `BytesOrTime::Bytes` constructor. -/
def ReachedTimeBudget (bytes : Nat) : BytesOrTime := .Bytes bytes

/-- `BytesOrTime::gt` (the unsafe ranking comparison; validity across
probes requires equal budgets, a caller obligation not visible on the
values). -/
def BytesOrTime.gt : BytesOrTime → BytesOrTime → Bool
  | .Bytes a, .Bytes b => a > b
  | .Time a, .Time b => a < b
  | .Time _, .Bytes _ => true
  | .Bytes _, .Time _ => false

/-- One item of an HTTP response stream: a successful chunk (its byte
content, plus the elapsed-clock reading `start.elapsed()` observed right
after receiving it), or a mid-stream transport error (`chunk?`). -/
inductive StreamItem
  | chunk (data : List UInt8) (elapsed : Nat)
  | err (e : Error)
deriving DecidableEq, Repr

/-- A client is a deterministic map from URL to the outcome of
`client.get(url)`: either a transport error or the stream of items the
response produces. -/
def Client : Type := String → Except Error (List StreamItem)

/-- The probe loop of `speedtest` (`src/download/mirror.rs` lines 49-65):
accumulate bytes; after each chunk first check the byte budget
(`downloaded >= max_bytes` → `Time(elapsed)`), then the time budget
(`elapsed >= max_time` → `Bytes(downloaded)`); a mid-stream error
propagates; stream exhaustion is a `Network` error. -/
def speedtestLoop (maxBytes maxTime : Nat) :
    Nat → List StreamItem → Except Error BytesOrTime
  | _, [] =>
      .error ((Error.new .Network).with_desc "File size exceeds maximum bytes")
  | _, .err e :: _ => .error e
  | downloaded, .chunk data elapsed :: rest =>
      let d := downloaded + data.length
      if maxBytes ≤ d then .ok (.Time elapsed)
      else if maxTime ≤ elapsed then .ok (.Bytes d)
      else speedtestLoop maxBytes maxTime d rest

/-- `speedtest` (`src/download/mirror.rs`): issue the GET (propagating a
`Network` failure), then run the probe loop from zero bytes. -/
def speedtest (maxBytes maxTime : Nat) (resp : Except Error (List StreamItem)) :
    Except Error BytesOrTime :=
  match resp with
  | .error e => .error e
  | .ok items => speedtestLoop maxBytes maxTime 0 items

/-- The selection loop of `fastest_mirror` (`src/download/mirror.rs`
lines 79-99), with each candidate paired with its probe outcome: a
failed probe is skipped; a successful probe replaces the leader only if
it strictly outranks the current best speed. -/
def fastestLoop {M : Type} :
    Option M → BytesOrTime → List (M × Except Error BytesOrTime) → Option M
  | best, _, [] => best
  | best, bestSpeed, (m, .ok speed) :: rest =>
      if speed.gt bestSpeed then fastestLoop (some m) speed rest
      else fastestLoop best bestSpeed rest
  | best, bestSpeed, (_, .error _) :: rest => fastestLoop best bestSpeed rest

/-- `fastest_mirror`: run the selection loop with no leader and the
artificial floor `BytesOrTime::Bytes(0)`. -/
def fastest_mirror {M : Type} (probes : List (M × Except Error BytesOrTime)) : Option M :=
  fastestLoop none (.Bytes 0) probes

/-- A probe trace hits no cutoff: every item is a successful chunk, and
after each chunk the accumulated bytes stay below the byte budget and
the elapsed clock stays below the time budget. -/
def noCutoff (maxBytes maxTime : Nat) : Nat → List StreamItem → Bool
  | _, [] => true
  | _, .err _ :: _ => false
  | acc, .chunk data elapsed :: rest =>
      decide (acc + data.length < maxBytes) && decide (elapsed < maxTime) &&
        noCutoff maxBytes maxTime (acc + data.length) rest

/-- Total number of chunk bytes in a stream trace. -/
def sumLen : List StreamItem → Nat
  | [] => 0
  | .chunk data _ :: rest => data.length + sumLen rest
  | .err _ :: rest => sumLen rest

/-! ## Verifier chain (`src/verify.rs`) -/

/-- One verifier implementation behind the `VerifierBuilder`/`Verifier`
capability pair of `src/verify.rs`: `build` produces a fresh state (or a
construction-time error), `update` is the infallible incremental feed,
`verify` is the terminal check consuming the state. -/
structure VerifierImpl (σ : Type) where
  build : Except Error σ
  update : σ → List UInt8 → σ
  verify : σ → Except Error Unit

/-- `READ_BUF_SIZE` (8 KiB), the intermediate buffer of
`Verifier::update_reader`. -/
def READ_BUF_SIZE : Nat := 0x2000

/-- Split a byte sequence into the successive reads a full drain of an
in-memory reader through an 8 KiB buffer produces (each read fills the
buffer except possibly the last).  The fuel argument, instantiated with
the list length by `chunksOf`, only drives structural recursion: each
step removes at least one element, so the fuel never runs out on the
inputs `chunksOf` supplies. -/
def chunksOfFuel : Nat → List UInt8 → List (List UInt8)
  | _, [] => []
  | 0, l => [l]
  | fuel + 1, a :: rest =>
      (a :: rest).take READ_BUF_SIZE ::
        chunksOfFuel fuel ((a :: rest).drop READ_BUF_SIZE)

/-- The successive 8 KiB buffered reads of a byte sequence. -/
def chunksOf (l : List UInt8) : List (List UInt8) := chunksOfFuel l.length l

/-- `Verifier::update_reader` on an in-memory reader holding `data`:
feed the successive buffered reads to `update`.  (Read failures, the
only failure mode, are outside the model: reads from resident data
succeed.) -/
def update_reader {σ : Type} (vi : VerifierImpl σ) (s : σ) (data : List UInt8) : σ :=
  (chunksOf data).foldl vi.update s

/-- `SizeVerifier` (`src/verify.rs`): expected size and the running
saturating byte count. -/
structure SizeVerifier where
  expected_size : Nat
  current_size : Nat
deriving DecidableEq, Repr

/-- `u64::saturating_add`, on the `Nat` model of `u64` values. -/
def u64SaturatingAdd (a b : Nat) : Nat := min U64MAX (a + b)

/-- `SizeVerifier::update`: `current_size.saturating_add(data.len())`.
(On 64-bit targets `data.len() as u64` is the identity: a slice length
never reaches `2^64`.) -/
def SizeVerifier.update (v : SizeVerifier) (data : List UInt8) : SizeVerifier :=
  { v with current_size := u64SaturatingAdd v.current_size data.length }

/-- `SizeVerifier::verify`: equality of the accumulated and expected
counts, with both counts in the mismatch description. -/
def SizeVerifier.verify (v : SizeVerifier) : Except Error Unit :=
  if v.current_size = v.expected_size then .ok ()
  else
    .error ((Error.new .Verify).with_desc
      ("File size mismatch: expected " ++ toString v.expected_size ++
        ", got " ++ toString v.current_size))

/-- `SizeVerifierBuilder::build`: a fresh `SizeVerifier` with zero count. -/
def sizeVerifierImpl (expected_size : Nat) : VerifierImpl SizeVerifier where
  build := .ok ⟨expected_size, 0⟩
  update := SizeVerifier.update
  verify := SizeVerifier.verify

/-- An instance of the external `Digest` trait parameter `D` of
`HashVerifier` (the crate treats the primitive as an opaque
collaborator): an output length and the digest of a byte sequence, with
the incremental hasher state modelled as the bytes fed so far. -/
structure DigestImpl where
  output_size : Nat
  digest : List UInt8 → List UInt8

/-- `HashVerifierBuilder::build` / `HashVerifier` (`src/verify.rs`):
construction fails with a `Verify` error when the expected hash length
differs from the digest's output length; `update` feeds the hasher;
`verify` compares the finalized digest with the expected bytes. -/
def hashVerifierImpl (D : DigestImpl) (hash : List UInt8) : VerifierImpl (List UInt8) where
  build :=
    if hash.length ≠ D.output_size then
      .error ((Error.new .Verify).with_desc "Invalid hash length")
    else .ok []
  update := fun s data => s ++ data
  verify := fun s =>
    if D.digest s = hash then .ok ()
    else .error ((Error.new .Verify).with_desc "Hash mismatch")

/-! ## Download orchestrator (`src/download/mod.rs`) -/

/-- Externally observable side effects of one `download` run, in
program order: probe GETs issued by the mirror race, the GET on the
chosen source, destination-file creation and writes, progress calls,
and an invocation of the mirror-options error handler. -/
inductive Event
  | probeRequest (url : String)
  | getRequest (url : String)
  | fileCreate
  | fileWrite (len : Nat)
  | progressSet (pos : Nat)
  | progressFinish
  | handlerInvoke
deriving DecidableEq, Repr

/-- `MirrorOptions` (`src/download/mod.rs`): mirror list, probe budgets,
and the optional error handler (the closure payload is opaque; only its
presence is modelled). -/
structure MirrorOptions where
  mirrors : List String
  max_bytes : Nat
  max_time : Nat
  error_handler : Option Unit
deriving DecidableEq, Repr

/-- `MirrorOptions::new`: no handler registered. -/
def MirrorOptions.new (mirrors : List String) (max_bytes max_time : Nat) :
    MirrorOptions :=
  ⟨mirrors, max_bytes, max_time, none⟩

/-- `MirrorOptions::with_error_handler`: store the handler. -/
def MirrorOptions.with_error_handler (o : MirrorOptions) : MirrorOptions :=
  { o with error_handler := some () }

/-- `DownloadBuilder` (`src/download/mod.rs`): source URL, expected
size, optional verifier, optional mirror options.  The destination path
itself is modelled by the state passed to `exist` / `download` (its
current contents, or absence). -/
structure DownloadBuilder (σ : Type) where
  url : String
  size : Nat
  verifier : Option (VerifierImpl σ)
  mirror_options : Option MirrorOptions

/-- `DownloadBuilder::exist` (`src/download/mod.rs` lines 56-70), with
the destination state passed as `none` (no file) or `some data` (a file
with contents `data`): absent file → `false`; length mismatch →
`false`; otherwise build the verifier (propagating its error), drive
the file through `update_reader`, and map the result to `true`. -/
def DownloadBuilder.exist {σ : Type} (b : DownloadBuilder σ)
    (dest : Option (List UInt8)) : Except Error Bool :=
  match dest with
  | none => .ok false
  | some data =>
      if data.length ≠ b.size then .ok false
      else
        match b.verifier with
        | some vi =>
            match vi.build with
            | .error e => .error e
            | .ok s =>
                let _ := update_reader vi s data
                .ok true
        | none => .ok true

/-- The source-selection head of `download` (`src/download/mod.rs`
lines 78-85): with mirror options, probe `[url] ++ mirrors` in order
(each candidate's probe is a GET, recorded as a `probeRequest` event —
the race loop always runs through every candidate) and ask
`fastest_mirror`; `none` becomes the `Network` "No mirrors available"
error.  Without options the primary URL is used with no network
activity. -/
def selectSource (url : String) (opts : Option MirrorOptions) (client : Client) :
    Except Error String × List Event :=
  match opts with
  | none => (.ok url, [])
  | some o =>
      let candidates := url :: o.mirrors
      let outcomes := candidates.map
        (fun m => (m, speedtest o.max_bytes o.max_time (client m)))
      let evs := candidates.map Event.probeRequest
      match fastest_mirror outcomes with
      | some m => (.ok m, evs)
      | none => (.error ((Error.new .Network).with_desc "No mirrors available"), evs)

/-- The verifier-construction step of `download` (lines 87-91):
`self.verifier.as_ref().map(|v| v.build()).transpose()?`. -/
def buildVerifier {σ : Type} :
    Option (VerifierImpl σ) → Except Error (Option (VerifierImpl σ × σ))
  | none => .ok none
  | some vi =>
      match vi.build with
      | .error e => .error e
      | .ok s => .ok (some (vi, s))

/-- The streaming loop and finalization of `download` (lines 99-117):
for each chunk, write it, report the new cumulative position to the
progress sink if present, feed the verifier if present; a mid-stream
error aborts; on exhaustion, finish progress then run the terminal
verify. -/
def runStream {σ : Type} (hasProgress : Bool) :
    Option (VerifierImpl σ × σ) → Nat → List StreamItem →
      Except Error Unit × List Event
  | ver, _, [] =>
      let evs := if hasProgress then [Event.progressFinish] else []
      match ver with
      | some (vi, s) => (vi.verify s, evs)
      | none => (.ok (), evs)
  | _, _, .err e :: _ => (.error e, [])
  | ver, downloaded, .chunk data _ :: rest =>
      let d := downloaded + data.length
      let evs := Event.fileWrite data.length ::
        (if hasProgress then [Event.progressSet d] else [])
      let ver' := ver.map (fun p => (p.1, p.1.update p.2 data))
      let r := runStream hasProgress ver' d rest
      (r.1, evs ++ r.2)

/-- `DownloadBuilder::download` (`src/download/mod.rs` lines 73-120),
with the destination's prior existence passed as `destExists` and the
progress sink's presence as `hasProgress`.  Order of effects, as in the
source: mirror selection (probe GETs), verifier construction, progress
init, the GET on the chosen source, then `File::create_new` — which
fails with the `Io` conversion of the `AlreadyExists` error when the
destination already exists — then the streaming loop. -/
def download {σ : Type} (b : DownloadBuilder σ) (client : Client)
    (hasProgress : Bool) (destExists : Bool) :
    Except Error Unit × List Event :=
  match selectSource b.url b.mirror_options client with
  | (.error e, evs) => (.error e, evs)
  | (.ok url, evs) =>
      match buildVerifier b.verifier with
      | .error e => (.error e, evs)
      | .ok ver =>
          match client url with
          | .error e => (.error e, evs ++ [Event.getRequest url])
          | .ok items =>
              if destExists then
                ((.error (Error.new .Io).with_source),
                  evs ++ [Event.getRequest url])
              else
                let r := runStream hasProgress ver 0 items
                (r.1, evs ++ [Event.getRequest url, Event.fileCreate] ++ r.2)

/-! ## Helper lemmas -/

/-- Saturating accumulation is insensitive to an intermediate cap:
capping before adding more gives the same result as capping once at the
end. -/
theorem min_sat_add (M x z : Nat) : min M (min M x + z) = min M (x + z) := by
  rcases Nat.le_total M x with h | h
  · rw [Nat.min_eq_left h, Nat.min_eq_left (Nat.le_add_right M z),
      Nat.min_eq_left (Nat.le_trans h (Nat.le_add_right x z))]
  · rw [Nat.min_eq_right h]

/-- Folding `SizeVerifier::update` over any chunk list caps the running
count at `u64::MAX` of the initial count plus the total byte length. -/
theorem size_foldl_eq (cs : List (List UInt8)) (e : Nat) :
    ∀ c ≤ U64MAX,
      cs.foldl SizeVerifier.update ⟨e, c⟩ = ⟨e, min U64MAX (c + cs.flatten.length)⟩ := by
  induction cs with
  | nil =>
      intro c hc
      simp only [List.foldl_nil, List.flatten_nil, List.length_nil, Nat.add_zero]
      rw [Nat.min_eq_right hc]
  | cons a rest ih =>
      intro c hc
      simp only [List.foldl_cons, SizeVerifier.update, u64SaturatingAdd]
      rw [ih (min U64MAX (c + a.length)) (Nat.min_le_left _ _)]
      simp only [List.flatten_cons, List.length_append, SizeVerifier.mk.injEq, true_and]
      rw [min_sat_add, Nat.add_assoc]

/-- Running the probe loop past a trace that hits no cutoff just
accumulates its bytes. -/
theorem speedtestLoop_append (mb mt : Nat) (pre xs : List StreamItem) :
    ∀ acc, noCutoff mb mt acc pre = true →
      speedtestLoop mb mt acc (pre ++ xs) = speedtestLoop mb mt (acc + sumLen pre) xs := by
  induction pre with
  | nil =>
      intro acc _
      simp [sumLen]
  | cons it rest ih =>
      intro acc h
      cases it with
      | err e => simp [noCutoff] at h
      | chunk data elapsed =>
          simp only [noCutoff, Bool.and_eq_true, decide_eq_true_eq] at h
          obtain ⟨⟨h1, h2⟩, h3⟩ := h
          simp only [List.cons_append, speedtestLoop]
          rw [if_neg (by omega), if_neg (by omega)]
          rw [show rest.append xs = rest ++ xs from rfl, ih (acc + data.length) h3]
          simp only [sumLen]
          rw [Nat.add_assoc]

/-- A result of the selection loop is the incoming leader or a
candidate from the list whose probe succeeded. -/
theorem fastestLoop_some_mem {M : Type} (l : List (M × Except Error BytesOrTime)) :
    ∀ (best : Option M) (speed : BytesOrTime) (m : M),
      fastestLoop best speed l = some m →
        best = some m ∨ ∃ s, (m, Except.ok s) ∈ l := by
  induction l with
  | nil =>
      intro best speed m h
      exact .inl h
  | cons p rest ih =>
      intro best speed m h
      obtain ⟨m', r⟩ := p
      cases r with
      | error e =>
          rcases ih _ _ _ h with h' | ⟨s, hs⟩
          · exact .inl h'
          · exact .inr ⟨s, List.mem_cons_of_mem _ hs⟩
      | ok s =>
          simp only [fastestLoop] at h
          by_cases hgt : s.gt speed = true
          · rw [if_pos hgt] at h
            rcases ih _ _ _ h with h' | ⟨s', hs'⟩
            · cases h'
              exact .inr ⟨s, List.mem_cons_self _ _⟩
            · exact .inr ⟨s', List.mem_cons_of_mem _ hs'⟩
          · rw [if_neg hgt] at h
            rcases ih _ _ _ h with h' | ⟨s', hs'⟩
            · exact .inl h'
            · exact .inr ⟨s', List.mem_cons_of_mem _ hs'⟩

/-- Candidates whose probes failed leave the selection loop's state
untouched. -/
theorem fastestLoop_append_errors {M : Type} (pre xs : List (M × Except Error BytesOrTime))
    (h : ∀ p ∈ pre, ∃ e, p.2 = .error e) :
    ∀ (best : Option M) (speed : BytesOrTime),
      fastestLoop best speed (pre ++ xs) = fastestLoop best speed xs := by
  induction pre with
  | nil =>
      intro best speed
      rfl
  | cons p rest ih =>
      intro best speed
      obtain ⟨m, r⟩ := p
      obtain ⟨e, he⟩ := h (m, r) (List.mem_cons_self _ _)
      simp only at he
      subst he
      simp only [List.cons_append, fastestLoop]
      exact ih (fun q hq => h q (List.mem_cons_of_mem _ hq)) best speed

/-- A leader no later successful probe strictly outranks stays the
selection. -/
theorem fastestLoop_stay {M : Type} (rest : List (M × Except Error BytesOrTime)) :
    ∀ (m : M) (s : BytesOrTime),
      (∀ p ∈ rest, ∀ s', p.2 = .ok s' → s'.gt s = false) →
        fastestLoop (some m) s rest = some m := by
  induction rest with
  | nil =>
      intro m s _
      rfl
  | cons p tail ih =>
      intro m s h
      obtain ⟨m', r⟩ := p
      cases r with
      | error e =>
          exact ih m s (fun q hq => h q (List.mem_cons_of_mem _ hq))
      | ok s' =>
          have hf : s'.gt s = false := h (m', .ok s') (List.mem_cons_self _ _) s' rfl
          simp only [fastestLoop, hf, Bool.false_eq_true, if_false]
          exact ih m s (fun q hq => h q (List.mem_cons_of_mem _ hq))

/-- When every candidate's probe failed, the race selects nothing. -/
theorem fastest_mirror_all_errors {M : Type} (l : List (M × Except Error BytesOrTime))
    (h : ∀ p ∈ l, ∃ e, p.2 = .error e) : fastest_mirror l = none := by
  have := fastestLoop_append_errors l [] h none (.Bytes 0)
  rw [List.append_nil] at this
  exact this

/-- Every event of the source-selection step is a probe request. -/
theorem selectSource_events (url : String) (opts : Option MirrorOptions) (client : Client) :
    ∀ ev ∈ (selectSource url opts client).2, ∃ m, ev = Event.probeRequest m := by
  intro ev hev
  cases opts with
  | none => cases hev
  | some o =>
      simp only [selectSource] at hev
      split at hev <;>
        · simp only [List.mem_map] at hev
          obtain ⟨m, _, hm⟩ := hev
          exact ⟨m, hm.symm⟩

/-- The probe request for each candidate appears in the selection
step's events. -/
theorem selectSource_probe_mem (url : String) (o : MirrorOptions) (client : Client) :
    ∀ m ∈ url :: o.mirrors, Event.probeRequest m ∈ (selectSource url (some o) client).2 := by
  intro m hm
  simp only [selectSource]
  split <;> exact List.mem_map_of_mem Event.probeRequest hm

/-- Every event of the streaming loop is a write, a progress update or
the progress finish. -/
theorem runStream_events {σ : Type} (hasProgress : Bool) (items : List StreamItem) :
    ∀ (ver : Option (VerifierImpl σ × σ)) (d : Nat),
      ∀ ev ∈ (runStream hasProgress ver d items).2,
        (∃ n, ev = Event.fileWrite n) ∨ (∃ n, ev = Event.progressSet n)
          ∨ ev = Event.progressFinish := by
  induction items with
  | nil =>
      intro ver d ev hev
      simp only [runStream] at hev
      cases ver with
      | none =>
          cases hasProgress with
          | false => cases hev
          | true =>
              rcases List.mem_singleton.mp hev with rfl
              exact .inr (.inr rfl)
      | some p =>
          cases hasProgress with
          | false => cases hev
          | true =>
              rcases List.mem_singleton.mp hev with rfl
              exact .inr (.inr rfl)
  | cons it rest ih =>
      intro ver d ev hev
      cases it with
      | err e => cases hev
      | chunk data elapsed =>
          simp only [runStream, List.cons_append, List.mem_cons] at hev
          rcases hev with rfl | hev
          · exact .inl ⟨data.length, rfl⟩
          · rcases List.mem_append.mp hev with hev | hev
            · cases hasProgress with
              | false => cases hev
              | true =>
                  rcases List.mem_singleton.mp hev with rfl
                  exact .inr (.inl ⟨d + data.length, rfl⟩)
            · exact ih _ _ ev hev

/-! ## Theorems for the claims -/

/-- C3: `ReachedByteBudget(t1)` outranks `ReachedByteBudget(t2)` iff
`t1 < t2`; `ReachedTimeBudget(b1)` outranks `ReachedTimeBudget(b2)` iff
`b1 > b2`; every `ReachedByteBudget` outranks every `ReachedTimeBudget`
(and never the converse); equal values rank as tied (neither outranks
the other). -/
theorem probe_ranking_C3 :
    (∀ t1 t2 : Nat, ((ReachedByteBudget t1).gt (ReachedByteBudget t2) = true ↔ t1 < t2))
    ∧ (∀ b1 b2 : Nat, ((ReachedTimeBudget b1).gt (ReachedTimeBudget b2) = true ↔ b1 > b2))
    ∧ (∀ t b : Nat, (ReachedByteBudget t).gt (ReachedTimeBudget b) = true
        ∧ (ReachedTimeBudget b).gt (ReachedByteBudget t) = false)
    ∧ (∀ v : BytesOrTime, v.gt v = false) := by
  refine ⟨?_, ?_, ?_, ?_⟩
  · intro t1 t2
    simp [ReachedByteBudget, BytesOrTime.gt]
  · intro b1 b2
    simp [ReachedTimeBudget, BytesOrTime.gt]
  · intro t b
    exact ⟨rfl, rfl⟩
  · intro v
    cases v <;> simp [BytesOrTime.gt]

/-- C9 counterexample: comparing two error kinds `Other` for equality
(the derived variant equality, the only equality the error model
implements, asserted equal by the crate's own tests) yields `true`,
refuting "never considered equal". -/
theorem errorkind_other_eq_C9_cex : (ErrorKind.Other == ErrorKind.Other) = true := rfl

/-- C9 amended: equality on error kinds is plain variant equality, so a
kind `Other` *is* equal to another `Other`; `a == b` holds exactly when
the kinds are the same variant. -/
theorem errorkind_other_eq_C9 :
    (ErrorKind.Other == ErrorKind.Other) = true
    ∧ ∀ a b : ErrorKind, ((a == b) = true ↔ a = b) := by
  refine ⟨rfl, ?_⟩
  intro a b
  cases a <;> cases b <;> decide

/-- C7: building a `Hash` verifier fails with a `Verify`-kind error at
construction time exactly when the expected hash's length differs from
the digest's output length, and succeeds (with a fresh hasher state) on
a hash of the correct length. -/
theorem hash_build_length_C7 (D : DigestImpl) (hash : List UInt8) :
    (hash.length ≠ D.output_size →
      (hashVerifierImpl D hash).build
        = .error ((Error.new .Verify).with_desc "Invalid hash length"))
    ∧ (hash.length = D.output_size → (hashVerifierImpl D hash).build = .ok []) := by
  constructor
  · intro h
    simp [hashVerifierImpl, h]
  · intro h
    simp [hashVerifierImpl, h]

/-- C7 witness: a two-byte digest rejects a one-byte expected hash at
construction with a `Verify` error, and accepts a two-byte one. -/
theorem hash_build_length_C7_witness :
    ((hashVerifierImpl ⟨2, fun _ => [0, 0]⟩ [0]).build
        = .error ((Error.new .Verify).with_desc "Invalid hash length"))
    ∧ ((hashVerifierImpl ⟨2, fun _ => [0, 0]⟩ [0, 0]).build = .ok []) :=
  ⟨(hash_build_length_C7 ⟨2, fun _ => [0, 0]⟩ [0]).1 (by decide),
    (hash_build_length_C7 ⟨2, fun _ => [0, 0]⟩ [0, 0]).2 (by decide)⟩

/-- C8: feeding the chunks of either of two splits of the same byte
sequence to a freshly built `Size` verifier yields the same terminal
verdict: the verdict depends only on the concatenated bytes. -/
theorem size_verdict_chunking_C8 (expected : Nat) (v0 : SizeVerifier)
    (cs1 cs2 : List (List UInt8))
    (hbuild : (sizeVerifierImpl expected).build = .ok v0)
    (hjoin : cs1.flatten = cs2.flatten) :
    (sizeVerifierImpl expected).verify (cs1.foldl (sizeVerifierImpl expected).update v0)
      = (sizeVerifierImpl expected).verify (cs2.foldl (sizeVerifierImpl expected).update v0) := by
  have hv0 : v0 = ⟨expected, 0⟩ := by
    simp only [sizeVerifierImpl, Except.ok.injEq] at hbuild
    exact hbuild.symm
  subst hv0
  show SizeVerifier.verify _ = SizeVerifier.verify _
  have hu : (sizeVerifierImpl expected).update = SizeVerifier.update := rfl
  rw [hu, size_foldl_eq cs1 expected 0 (Nat.zero_le _),
    size_foldl_eq cs2 expected 0 (Nat.zero_le _), hjoin]

/-- C1 counterexample: with the destination already existing, a
download (primary URL only, reachable source, empty stream) does fail
with kind `Io`, but only after the GET network request on the source
was issued — the trace of the run contains a network request, refuting
"before any network request is issued". -/
theorem download_dest_exists_C1_cex :
    (download (⟨"u", 0, (none : Option (VerifierImpl SizeVerifier)), none⟩ : DownloadBuilder _)
        (fun _ => .ok []) false true).1 = .error ((Error.new .Io).with_source)
    ∧ Event.getRequest "u"
        ∈ (download (⟨"u", 0, (none : Option (VerifierImpl SizeVerifier)), none⟩ : DownloadBuilder _)
            (fun _ => .ok []) false true).2 := by
  constructor
  · rfl
  · show Event.getRequest "u" ∈ [Event.getRequest "u"]
    exact List.mem_singleton.mpr rfl

/-- C1 amended: a download to an already-existing destination always
fails and never creates or writes the destination file; and whenever it
reaches the file-creation step (source selected, verifier built, GET on
the chosen source succeeded), the error has kind `Io` — but the GET
network request was already issued by then, so the failure does not
precede all network activity. -/
theorem download_dest_exists_C1 {σ : Type} (b : DownloadBuilder σ) (client : Client)
    (hasProgress : Bool) :
    (∃ e, (download b client hasProgress true).1 = .error e)
    ∧ Event.fileCreate ∉ (download b client hasProgress true).2
    ∧ (∀ n, Event.fileWrite n ∉ (download b client hasProgress true).2)
    ∧ (∀ u evs, selectSource b.url b.mirror_options client = (.ok u, evs) →
        ∀ ver, buildVerifier b.verifier = .ok ver →
          ∀ items, client u = .ok items →
            (download b client hasProgress true).1 = .error ((Error.new .Io).with_source)
            ∧ Event.getRequest u ∈ (download b client hasProgress true).2) := by
  have hevs := selectSource_events b.url b.mirror_options client
  rcases hS : selectSource b.url b.mirror_options client with ⟨r, evs⟩
  rw [hS] at hevs
  have hnc : Event.fileCreate ∉ evs := by
    intro hmem
    obtain ⟨m, hm⟩ := hevs _ hmem
    cases hm
  have hnw : ∀ n, Event.fileWrite n ∉ evs := by
    intro n hmem
    obtain ⟨m, hm⟩ := hevs _ hmem
    cases hm
  cases r with
  | error e =>
      have hd : download b client hasProgress true = (.error e, evs) := by
        simp only [download, hS]
      rw [hd]
      refine ⟨⟨e, rfl⟩, hnc, hnw, ?_⟩
      intro u evs0 hsel0
      simp at hsel0
  | ok u =>
      rcases hB : buildVerifier b.verifier with e | ver
      · have hd : download b client hasProgress true = (.error e, evs) := by
          simp only [download, hS, hB]
        rw [hd]
        refine ⟨⟨e, rfl⟩, hnc, hnw, ?_⟩
        intro u' evs0 hsel0 ver hver
        simp at hver
      · rcases hC : client u with e | items
        · have hd : download b client hasProgress true
              = (.error e, evs ++ [Event.getRequest u]) := by
            simp only [download, hS, hB, hC]
          rw [hd]
          refine ⟨⟨e, rfl⟩, ?_, ?_, ?_⟩
          · intro hmem
            rcases List.mem_append.mp hmem with hmem | hmem
            · exact hnc hmem
            · rcases List.mem_singleton.mp hmem with hmem
              cases hmem
          · intro n hmem
            rcases List.mem_append.mp hmem with hmem | hmem
            · exact hnw n hmem
            · rcases List.mem_singleton.mp hmem with hmem
              cases hmem
          · intro u' evs0 hsel0 ver' hver items hitems
            simp only [Prod.mk.injEq, Except.ok.injEq] at hsel0
            obtain ⟨rfl, rfl⟩ := hsel0
            rw [hC] at hitems
            simp at hitems
        · have hd : download b client hasProgress true
              = (.error ((Error.new .Io).with_source), evs ++ [Event.getRequest u]) := by
            simp only [download, hS, hB, hC, if_true]
          rw [hd]
          refine ⟨⟨(Error.new .Io).with_source, rfl⟩, ?_, ?_, ?_⟩
          · intro hmem
            rcases List.mem_append.mp hmem with hmem | hmem
            · exact hnc hmem
            · rcases List.mem_singleton.mp hmem with hmem
              cases hmem
          · intro n hmem
            rcases List.mem_append.mp hmem with hmem | hmem
            · exact hnw n hmem
            · rcases List.mem_singleton.mp hmem with hmem
              cases hmem
          · intro u' evs0 hsel0 ver' hver items hitems
            simp only [Prod.mk.injEq, Except.ok.injEq] at hsel0
            obtain ⟨rfl, rfl⟩ := hsel0
            exact ⟨rfl, List.mem_append.mpr (.inr (List.mem_singleton.mpr rfl))⟩

/-- C1 witness: a concrete download to an existing destination fails
with kind `Io` after its GET was issued, and never creates or writes
the file. -/
theorem download_dest_exists_C1_witness :
    (download (⟨"w", 0, (none : Option (VerifierImpl SizeVerifier)), none⟩ : DownloadBuilder _)
        (fun _ => .ok []) false true).1 = .error ((Error.new .Io).with_source)
    ∧ Event.getRequest "w"
        ∈ (download (⟨"w", 0, (none : Option (VerifierImpl SizeVerifier)), none⟩ : DownloadBuilder _)
            (fun _ => .ok []) false true).2
    ∧ Event.fileCreate
        ∉ (download (⟨"w", 0, (none : Option (VerifierImpl SizeVerifier)), none⟩ : DownloadBuilder _)
            (fun _ => .ok []) false true).2 := by
  have h := download_dest_exists_C1
    (⟨"w", 0, (none : Option (VerifierImpl SizeVerifier)), none⟩ : DownloadBuilder _)
    (fun _ => .ok []) false
  obtain ⟨_, hnc, _, h4⟩ := h
  obtain ⟨h1, h2⟩ := h4 "w" [] rfl none rfl [] rfl
  exact ⟨h1, h2, hnc⟩

/-- C6: after each chunk the byte budget is checked before the time
budget, so reaching the byte budget records `ReachedByteBudget` of the
elapsed time even when the time budget is also exceeded; otherwise an
expired time budget records `ReachedTimeBudget` of the bytes so far;
a stream that ends before either cutoff yields the `Network`
"File size exceeds maximum bytes" error, and an errored candidate is
never the selected source. -/
theorem speedtest_cutoffs_C6 (mb mt : Nat) :
    (∀ (pre rest : List StreamItem) (data : List UInt8) (elapsed : Nat),
      noCutoff mb mt 0 pre = true → mb ≤ sumLen pre + data.length →
        speedtest mb mt (.ok (pre ++ .chunk data elapsed :: rest))
          = .ok (ReachedByteBudget elapsed))
    ∧ (∀ (pre rest : List StreamItem) (data : List UInt8) (elapsed : Nat),
      noCutoff mb mt 0 pre = true → sumLen pre + data.length < mb → mt ≤ elapsed →
        speedtest mb mt (.ok (pre ++ .chunk data elapsed :: rest))
          = .ok (ReachedTimeBudget (sumLen pre + data.length)))
    ∧ (∀ items : List StreamItem, noCutoff mb mt 0 items = true →
        speedtest mb mt (.ok items)
          = .error ((Error.new .Network).with_desc "File size exceeds maximum bytes"))
    ∧ (∀ (l : List (String × Except Error BytesOrTime)) (m : String),
        (∀ p ∈ l, p.1 = m → ∃ e, p.2 = .error e) → fastest_mirror l ≠ some m) := by
  refine ⟨?_, ?_, ?_, ?_⟩
  · intro pre rest data elapsed hpre hb
    show speedtestLoop mb mt 0 _ = _
    rw [speedtestLoop_append mb mt pre _ 0 hpre]
    simp only [Nat.zero_add, speedtestLoop]
    rw [if_pos hb]
    rfl
  · intro pre rest data elapsed hpre hb ht
    show speedtestLoop mb mt 0 _ = _
    rw [speedtestLoop_append mb mt pre _ 0 hpre]
    simp only [Nat.zero_add, speedtestLoop]
    rw [if_neg (by omega), if_pos ht]
    rfl
  · intro items hitems
    show speedtestLoop mb mt 0 _ = _
    rw [show items = items ++ [] from (List.append_nil items).symm,
      speedtestLoop_append mb mt items [] 0 hitems]
    rfl
  · intro l m hall hsome
    rcases fastestLoop_some_mem l none (.Bytes 0) m hsome with h | ⟨s, hs⟩
    · cases h
    · obtain ⟨e, he⟩ := hall (m, .ok s) hs rfl
      cases he

/-- C6 witness: with byte budget 3 and time budget 5, a cutoff-free
one-byte chunk followed by a two-byte chunk at elapsed 9 reaches the
byte budget and records the elapsed time although the time budget is
also exceeded; a first one-byte chunk at elapsed 7 records the byte
count; a short cutoff-free stream yields the `Network` error; and a
candidate whose probe errored is not selected. -/
theorem speedtest_cutoffs_C6_witness :
    speedtest 3 5 (.ok [.chunk [0] 1, .chunk [0, 0] 9]) = .ok (ReachedByteBudget 9)
    ∧ speedtest 3 5 (.ok [.chunk [0] 7]) = .ok (ReachedTimeBudget 1)
    ∧ speedtest 3 5 (.ok [.chunk [0] 1])
        = .error ((Error.new .Network).with_desc "File size exceeds maximum bytes")
    ∧ fastest_mirror [("m", Except.error (Error.new .Network))] ≠ some "m" := by
  obtain ⟨h1, h2, h3, h4⟩ := speedtest_cutoffs_C6 3 5
  refine ⟨?_, ?_, ?_, ?_⟩
  · exact h1 [.chunk [0] 1] [] [0, 0] 9 (by decide) (by decide)
  · exact h2 [] [] [0] 7 (by decide) (by decide) (by decide)
  · exact h3 [.chunk [0] 1] (by decide)
  · exact h4 [("m", Except.error (Error.new .Network))] "m"
      (fun p hp _ => ⟨Error.new .Network, by
        rcases List.mem_singleton.mp hp with rfl
        rfl⟩)

/-- C4 counterexample: a race whose only candidate's probe succeeds
with `ReachedTimeBudget` of zero bytes (an empty chunk received after
the time budget expired) selects nothing — the first successful probe
ties the artificial `Bytes(0)` floor instead of becoming the leader. -/
theorem fastest_mirror_first_success_C4_cex :
    speedtest 10 5 (.ok [.chunk [] 7]) = .ok (ReachedTimeBudget 0)
    ∧ fastest_mirror [("m1", speedtest 10 5 (.ok [.chunk [] 7]))] ≠ some "m1"
    ∧ fastest_mirror [("m1", speedtest 10 5 (.ok [.chunk [] 7]))] = none := by
  refine ⟨rfl, ?_, rfl⟩
  intro h
  cases h

/-- C4 amended: the first candidate whose probe succeeds becomes the
leader (and is selected when no later successful probe strictly
outranks it) provided its result strictly outranks the artificial
`Bytes(0)` floor — i.e. any `ReachedByteBudget` result, or a
`ReachedTimeBudget` result with positive bytes; a first result of
`ReachedTimeBudget` with zero bytes ties the floor and is not
selected. -/
theorem fastest_mirror_first_success_C4 {M : Type}
    (pre rest : List (M × Except Error BytesOrTime)) (m : M) (s : BytesOrTime)
    (hpre : ∀ p ∈ pre, ∃ e, p.2 = .error e)
    (hs : s.gt (.Bytes 0) = true)
    (hrest : ∀ p ∈ rest, ∀ s', p.2 = .ok s' → s'.gt s = false) :
    fastest_mirror (pre ++ (m, .ok s) :: rest) = some m := by
  show fastestLoop none (.Bytes 0) _ = some m
  rw [fastestLoop_append_errors pre _ hpre]
  simp only [fastestLoop, hs, if_true]
  exact fastestLoop_stay rest m s hrest

/-- C4 witness: after a failed probe, a first success of
`ReachedByteBudget(5)` leads and survives a later
`ReachedTimeBudget(3)`. -/
theorem fastest_mirror_first_success_C4_witness :
    fastest_mirror
        [("a", Except.error (Error.new .Network)),
         ("b", Except.ok (BytesOrTime.Time 5)),
         ("c", Except.ok (BytesOrTime.Bytes 3))] = some "b" := by
  have h := fastest_mirror_first_success_C4
    [("a", Except.error (Error.new .Network))] [("c", Except.ok (BytesOrTime.Bytes 3))]
    "b" (BytesOrTime.Time 5)
    (fun p hp => ⟨Error.new .Network, by
      rcases List.mem_singleton.mp hp with rfl
      rfl⟩)
    rfl
    (fun p hp s' hs' => by
      rcases List.mem_singleton.mp hp with rfl
      simp only [Except.ok.injEq] at hs'
      subst hs'
      rfl)
  exact h

/-- C5: when every candidate's probe fails, the race selects no mirror
(rather than erroring), every candidate is still probed (no single
failure aborts the race), and the download fails with the `Network`
"No mirrors available" error without creating or writing the
destination file. -/
theorem download_all_probes_fail_C5 {σ : Type} (b : DownloadBuilder σ) (client : Client)
    (hasProgress destExists : Bool) (opts : MirrorOptions)
    (hopts : b.mirror_options = some opts)
    (hall : ∀ m ∈ b.url :: opts.mirrors, ∃ e,
        speedtest opts.max_bytes opts.max_time (client m) = .error e) :
    fastest_mirror ((b.url :: opts.mirrors).map
        (fun m => (m, speedtest opts.max_bytes opts.max_time (client m)))) = none
    ∧ (download b client hasProgress destExists).1
        = .error ((Error.new .Network).with_desc "No mirrors available")
    ∧ Event.fileCreate ∉ (download b client hasProgress destExists).2
    ∧ (∀ n, Event.fileWrite n ∉ (download b client hasProgress destExists).2)
    ∧ (∀ m ∈ b.url :: opts.mirrors,
        Event.probeRequest m ∈ (download b client hasProgress destExists).2) := by
  have hfm : fastest_mirror ((b.url :: opts.mirrors).map
      (fun m => (m, speedtest opts.max_bytes opts.max_time (client m)))) = none := by
    apply fastest_mirror_all_errors
    intro p hp
    rcases List.mem_map.mp hp with ⟨m, hm, rfl⟩
    exact hall m hm
  have hsel : selectSource b.url b.mirror_options client
      = (.error ((Error.new .Network).with_desc "No mirrors available"),
          (b.url :: opts.mirrors).map Event.probeRequest) := by
    rw [hopts]
    simp only [selectSource, hfm]
  have hd : download b client hasProgress destExists
      = (.error ((Error.new .Network).with_desc "No mirrors available"),
          (b.url :: opts.mirrors).map Event.probeRequest) := by
    simp only [download, hsel]
  refine ⟨hfm, ?_, ?_, ?_, ?_⟩
  · rw [hd]
  · rw [hd]
    intro hmem
    rcases List.mem_map.mp hmem with ⟨m, _, hm⟩
    cases hm
  · intro n
    rw [hd]
    intro hmem
    rcases List.mem_map.mp hmem with ⟨m, _, hm⟩
    cases hm
  · intro m hm
    rw [hd]
    exact List.mem_map_of_mem Event.probeRequest hm

/-- C5 witness: a download whose primary and single mirror are both
unreachable probes every candidate, selects nothing and fails with the
`Network` "No mirrors available" error, creating and writing nothing. -/
theorem download_all_probes_fail_C5_witness :
    (download (⟨"u", 0, (none : Option (VerifierImpl SizeVerifier)),
          some (MirrorOptions.new ["m1"] 10 5)⟩ : DownloadBuilder _)
        (fun _ => .error (Error.new .Network)) false false).1
      = .error ((Error.new .Network).with_desc "No mirrors available")
    ∧ Event.fileCreate
        ∉ (download (⟨"u", 0, (none : Option (VerifierImpl SizeVerifier)),
              some (MirrorOptions.new ["m1"] 10 5)⟩ : DownloadBuilder _)
            (fun _ => .error (Error.new .Network)) false false).2
    ∧ Event.probeRequest "m1"
        ∈ (download (⟨"u", 0, (none : Option (VerifierImpl SizeVerifier)),
              some (MirrorOptions.new ["m1"] 10 5)⟩ : DownloadBuilder _)
            (fun _ => .error (Error.new .Network)) false false).2 := by
  have h := download_all_probes_fail_C5
    (⟨"u", 0, (none : Option (VerifierImpl SizeVerifier)),
        some (MirrorOptions.new ["m1"] 10 5)⟩ : DownloadBuilder _)
    (fun _ => .error (Error.new .Network)) false false
    (MirrorOptions.new ["m1"] 10 5) rfl
    (fun m _ => ⟨Error.new .Network, rfl⟩)
  obtain ⟨_, h1, h2, _, h4⟩ := h
  exact ⟨h1, h2, h4 "m1" (List.mem_cons_of_mem _ (List.mem_singleton.mpr rfl))⟩

/-- C2: the pre-flight `exist` query streams the file's contents
through the verifier but never invokes the terminal `verify`, so a file
of the right size whose contents the verifier rejects yields `true`:
here a one-byte file with the expected size whose bytes fail the hash
verifier's terminal check is reported as existing-and-valid. -/
theorem exist_skips_verify_C2 :
    (DownloadBuilder.exist
        (⟨"u", 1, some (hashVerifierImpl ⟨1, fun _ => [0]⟩ [1]), none⟩
          : DownloadBuilder (List UInt8))
        (some [0])) = .ok true
    ∧ (hashVerifierImpl ⟨1, fun _ => [0]⟩ [1]).verify
        (update_reader (hashVerifierImpl ⟨1, fun _ => [0]⟩ [1]) [] [0])
        = .error ((Error.new .Verify).with_desc "Hash mismatch") := by
  exact ⟨rfl, rfl⟩

/-- C10: the closure stored by `MirrorOptions::with_error_handler` is
never invoked by any download — no run's trace contains a handler
invocation, and registering a handler changes nothing observable about
the run. -/
theorem handler_never_invoked_C10 {σ : Type} (b : DownloadBuilder σ) (client : Client)
    (hasProgress destExists : Bool) (opts : MirrorOptions) :
    Event.handlerInvoke ∉ (download b client hasProgress destExists).2
    ∧ download { b with mirror_options := some opts.with_error_handler }
          client hasProgress destExists
        = download
          { b with
            mirror_options :=
              some (MirrorOptions.new opts.mirrors opts.max_bytes opts.max_time) }
          client hasProgress destExists := by
  constructor
  · have hevs := selectSource_events b.url b.mirror_options client
    rcases hS : selectSource b.url b.mirror_options client with ⟨r, evs⟩
    rw [hS] at hevs
    have hne : Event.handlerInvoke ∉ evs := by
      intro hmem
      obtain ⟨m, hm⟩ := hevs _ hmem
      cases hm
    cases r with
    | error e =>
        have hd : download b client hasProgress destExists = (.error e, evs) := by
          simp only [download, hS]
        rw [hd]
        exact hne
    | ok u =>
        rcases hB : buildVerifier b.verifier with e | ver
        · have hd : download b client hasProgress destExists = (.error e, evs) := by
            simp only [download, hS, hB]
          rw [hd]
          exact hne
        · rcases hC : client u with e | items
          · have hd : download b client hasProgress destExists
                = (.error e, evs ++ [Event.getRequest u]) := by
              simp only [download, hS, hB, hC]
            rw [hd]
            intro hmem
            rcases List.mem_append.mp hmem with hmem | hmem
            · exact hne hmem
            · rcases List.mem_singleton.mp hmem with hmem
              cases hmem
          · cases destExists with
            | true =>
                have hd : download b client hasProgress true
                    = (.error ((Error.new .Io).with_source),
                        evs ++ [Event.getRequest u]) := by
                  simp only [download, hS, hB, hC, if_true]
                rw [hd]
                intro hmem
                rcases List.mem_append.mp hmem with hmem | hmem
                · exact hne hmem
                · rcases List.mem_singleton.mp hmem with hmem
                  cases hmem
            | false =>
                have hd : download b client hasProgress false
                    = ((runStream hasProgress ver 0 items).1,
                        evs ++ [Event.getRequest u, Event.fileCreate]
                          ++ (runStream hasProgress ver 0 items).2) := by
                  simp only [download, hS, hB, hC, Bool.false_eq_true, if_false]
                rw [hd]
                intro hmem
                rcases List.mem_append.mp hmem with hmem | hmem
                · rcases List.mem_append.mp hmem with hmem | hmem
                  · exact hne hmem
                  · simp at hmem
                · rcases runStream_events hasProgress items ver 0 _ hmem with
                    ⟨n, hn⟩ | ⟨n, hn⟩ | hn
                  · cases hn
                  · cases hn
                  · cases hn
  · have h1 : selectSource b.url (some opts.with_error_handler) client
        = selectSource b.url
            (some (MirrorOptions.new opts.mirrors opts.max_bytes opts.max_time)) client := by
      simp [selectSource, MirrorOptions.with_error_handler, MirrorOptions.new]
    simp only [download, h1]

/-- C8 witness: the splits `[[0], [1, 2]]` and `[[0, 1], [2]]` of the
sequence `[0, 1, 2]` produce the same verdict. -/
theorem size_verdict_chunking_C8_witness :
    (sizeVerifierImpl 3).verify ([[0], [1, 2]].foldl (sizeVerifierImpl 3).update ⟨3, 0⟩)
      = (sizeVerifierImpl 3).verify ([[0, 1], [2]].foldl (sizeVerifierImpl 3).update ⟨3, 0⟩) :=
  size_verdict_chunking_C8 3 ⟨3, 0⟩ [[0], [1, 2]] [[0, 1], [2]] rfl rfl

end Fetchkit
